import Mathlib

/-!
Verification development for the document-intelligence ranking pipeline
(`main.py` of the InfoLayers repository).

The Python source is shallowly embedded below.  Modelling conventions:

* Python `str` is Lean `String`; `str.lower()` is `lowerStr` (character-wise
  `Char.toLower`, which agrees with CPython on the ASCII keyword catalogs
  used by the pipeline); the Python substring test `needle in haystack`
  is `strIn needle haystack`.
* Python `float` is modelled as `ℚ` with exact arithmetic (all literals in
  the source are decimal fractions).
* A Python dict that may lack a key is modelled with `Option` fields;
  direct indexing `d['k']` is monadic extraction (a `none` result models a
  raised `KeyError`), while `d.get('k', v)` is `Option.getD`.
* The external libraries (`sentence_transformers`, `nltk`, `re`) are the
  injection boundary: the embedding model composed with the fixed query
  vector is a parameter `sem : String → Option ℚ` (cosine similarity of
  the encoded text with the query embedding, `none` modelling a raised
  exception inside the `try` block), `nltk`'s entity extraction and
  sentence splitting are parameters `ece`/`sent_tok`, and `re.findall`
  is a parameter `findall : String → String → List String` applied to the
  literal pattern strings of the source.
* `list(set(xs))` is `xs.dedup` (same member set and cardinality; the
  claims proved below never depend on the hash-dependent ordering).
* Python's stable sort (`sorted`/`list.sort` with `reverse=True`) is
  `List.mergeSort` with the reflexive-total comparator
  `fun a b => key b ≤ key a`, which is the same stable descending sort.
-/

/-- Character-wise lowercasing, modelling Python `str.lower()` on the
ASCII texts compared by the pipeline. -/
def lowerStr (s : String) : String := ⟨s.data.map Char.toLower⟩

/-- Boolean test that the first character list starts the second. -/
def chStarts : List Char → List Char → Bool
  | [], _ => true
  | _ :: _, [] => false
  | a :: as, b :: bs => a == b && chStarts as bs

/-- Boolean test that the first character list occurs contiguously inside
the second. -/
def chSub (n : List Char) : List Char → Bool
  | [] => chStarts n []
  | b :: bs => chStarts n (b :: bs) || chSub n bs

/-- Python's substring containment test `needle in haystack`. -/
def strIn (needle hay : String) : Bool := chSub needle.data hay.data

/-- Python's `sep.join(parts)`. -/
def joinSep (sep : String) : List String → String
  | [] => ""
  | [s] => s
  | s :: rest => s ++ sep ++ joinSep sep rest

/-- Positive / negative constraint lists of a structured query
(`extract_constraints` result). -/
structure Constraints where
  positive : List String
  negative : List String
  deriving DecidableEq, Repr

/-- Inferred request context (`analyze_query_structure`'s `context` dict).
`group_size` and `age_group` default to Python `None`, modelled `none`. -/
structure Context where
  group_size : Option String
  age_group : Option String
  urgency : String
  complexity : String
  deriving DecidableEq, Repr

/-- Structured query produced by `analyze_query_structure`. -/
structure QueryAnalysis where
  core_entities : List String
  constraints : Constraints
  context : Context
  persona : String
  deriving DecidableEq, Repr

/-- Section record flowing through the pipeline.  The three string fields
are `Option`s because the Python dict may lack them; direct `section[...]`
indexing on a missing key raises `KeyError` (modelled by `none`
propagation). -/
structure SectionRec where
  document : Option String
  page_number : Int
  section_title : Option String
  text : Option String
  similarity_score : ℚ
  importance_rank : Nat
  deriving DecidableEq, Repr

/-- Output record of the pinpoint extractor
(`intelligent_subsection_analysis`). -/
structure SubResult where
  document : String
  page_number : Int
  refined_text : String
  deriving DecidableEq, Repr

/-- Literal positive regex patterns of `extract_constraints`. -/
def positive_patterns : List String :=
  ["\\b(vegetarian|vegan|gluten.?free|dairy.?free|nut.?free)\\b",
   "\\b(budget.?friendly|affordable|cheap|inexpensive)\\b",
   "\\b(quick|fast|easy|simple|convenient)\\b",
   "\\b(healthy|organic|natural|fresh)\\b",
   "\\b(corporate|business|professional|formal)\\b",
   "\\b(group|shared|collaborative|team)\\b",
   "\\b(student|youth|young|college)\\b",
   "\\b(luxury|premium|high.?end|exclusive)\\b",
   "\\b(urgent|immediate|asap|quickly)\\b",
   "\\b(comprehensive|detailed|thorough|complete)\\b"]

/-- Literal negative regex patterns of `extract_constraints`. -/
def negative_patterns : List String :=
  ["\\b(meat|beef|pork|chicken|fish)\\b",
   "\\b(expensive|luxury|premium|high.?end|exclusive)\\b",
   "\\b(breakfast|lunch)\\b",
   "\\b(slow|complicated|difficult|complex)\\b",
   "\\b(unhealthy|processed|artificial)\\b",
   "\\b(casual|informal|relaxed)\\b",
   "\\b(individual|personal|private)\\b",
   "\\b(adult|senior|elderly)\\b",
   "\\b(low.?priority|non.?urgent|whenever)\\b",
   "\\b(brief|summary|overview|basic)\\b"]

/-- Translation of `extract_constraints` (main.py:80-138).  `findall`
models `re.findall pattern text_lower` of the Python `re` library. -/
def extract_constraints (findall : String → String → List String)
    (text : String) : Constraints :=
  let text_lower := lowerStr text
  let positive_constraints :=
    positive_patterns.foldl (fun acc p => acc ++ findall p text_lower) []
  let negative_constraints :=
    negative_patterns.foldl (fun acc p => acc ++ findall p text_lower) []
  let negative_constraints := negative_constraints ++
    (if strIn "dinner" text_lower || strIn "evening" text_lower then
      ["breakfast", "lunch", "morning", "afternoon"] else [])
  let negative_constraints := negative_constraints ++
    (if strIn "budget" text_lower || strIn "affordable" text_lower then
      ["luxury", "premium", "expensive", "high-end"] else [])
  let negative_constraints := negative_constraints ++
    (if strIn "vegetarian" text_lower || strIn "vegan" text_lower then
      ["meat", "beef", "pork", "chicken", "fish"] else [])
  ⟨positive_constraints.dedup, negative_constraints.dedup⟩

/-- Translation of `analyze_query_structure` (main.py:191-245).  `ece`
models `extract_core_entities` (an `nltk`-backed noun extractor, an
external dependency), `findall` models `re.findall`. -/
def analyze_query_structure (ece : String → List String)
    (findall : String → String → List String)
    (persona job_to_be_done : String) : QueryAnalysis :=
  let combined_text := persona ++ " " ++ job_to_be_done
  let core_entities := ece combined_text
  let constraints := extract_constraints findall combined_text
  let cl := lowerStr combined_text
  let group_size :=
    if ["corporate", "business", "team", "group"].any (fun w => strIn w cl) then
      some "large"
    else if ["individual", "personal", "single"].any (fun w => strIn w cl) then
      some "small"
    else none
  let age_group :=
    if ["student", "youth", "college", "young"].any (fun w => strIn w cl) then
      some "young"
    else if ["senior", "elderly", "adult"].any (fun w => strIn w cl) then
      some "adult"
    else none
  let urgency :=
    if ["urgent", "asap", "immediate", "quickly"].any (fun w => strIn w cl) then
      "high"
    else if ["whenever", "no rush", "take time"].any (fun w => strIn w cl) then
      "low"
    else "normal"
  let complexity :=
    if ["comprehensive", "detailed", "thorough", "complete"].any
        (fun w => strIn w cl) then "high"
    else if ["brief", "summary", "overview", "basic"].any
        (fun w => strIn w cl) then "low"
    else "medium"
  ⟨core_entities, constraints, ⟨group_size, age_group, urgency, complexity⟩,
    persona⟩

/-- Translation of `calculate_dynamic_weights` (main.py:247-284).  The
quadruple `w` carries `(w1, w2, w3, w4)` through the in-place updates of
the Python source. -/
def calculate_dynamic_weights (query_analysis : QueryAnalysis) :
    ℚ × ℚ × ℚ × ℚ :=
  let core_entities := query_analysis.core_entities
  let constraints := query_analysis.constraints
  let context := query_analysis.context
  let w : ℚ × ℚ × ℚ × ℚ := (4/10, 3/10, 2/10, 1/10)
  let w :=
    if core_entities.length > 5 then
      (w.1 + 1/10, w.2.1 - 5/100, w.2.2.1 - 5/100, w.2.2.2)
    else if core_entities.length < 3 then
      (w.1 - 1/10, w.2.1 + 1/10, w.2.2.1, w.2.2.2)
    else w
  let total_constraints :=
    constraints.positive.length + constraints.negative.length
  let w :=
    if total_constraints > 3 then
      (w.1 - 1/10, w.2.1 + 1/10, w.2.2.1 - 5/100, w.2.2.2 + 5/100)
    else w
  let w :=
    if context.urgency = "high" then
      (w.1 - 1/10, w.2.1, w.2.2.1 + 1/10, w.2.2.2)
    else w
  let total := w.1 + w.2.1 + w.2.2.1 + w.2.2.2
  (w.1/total, w.2.1/total, w.2.2.1/total, w.2.2.2/total)

/-- Group-oriented keyword catalog of the group-size context bonus
(main.py:401). -/
def group_keywords : List String :=
  ["group", "shared", "multiple", "team", "collaborative", "batch",
    "corporate"]

/-- Youth keyword catalog of the age-group context bonus (main.py:407). -/
def youth_keywords : List String :=
  ["student", "youth", "young", "college", "budget", "affordable"]

/-- Document-type priority cascade of `calculate_multi_factor_score`
(main.py:351-394), taking the raw persona, the lowercased combined
title-plus-text and the lowercased document name. -/
def document_priority_score (persona text document : String) : ℚ :=
  if strIn "food contractor" (lowerStr persona) || strIn "menu" text then
    if strIn "mains" document || strIn "main" document then 3
    else if ["entree", "primary", "featured"].any (fun k => strIn k document)
      then 5/2
    else if strIn "sides" document || strIn "side" document then 1
    else if ["appetizer", "starter", "breakfast"].any (fun k => strIn k document)
      then 1/2
    else 0
  else if ["research", "study", "analysis", "literature"].any
      (fun k => strIn k text) then
    if strIn "methodology" document || strIn "methods" document then 2
    else if strIn "results" document || strIn "findings" document then 3/2
    else if strIn "introduction" document || strIn "background" document then 1
    else 0
  else if ["revenue", "financial", "business", "investment"].any
      (fun k => strIn k text) then
    if strIn "financial" document || strIn "revenue" document then 2
    else if strIn "strategy" document || strIn "analysis" document then 3/2
    else if strIn "overview" document || strIn "summary" document then 1
    else 0
  else if ["student", "study", "exam", "preparation"].any
      (fun k => strIn k text) then
    if strIn "key concepts" document || strIn "important" document then 2
    else if strIn "examples" document || strIn "practice" document then 3/2
    else if strIn "introduction" document || strIn "background" document then 1
    else 0
  else 0

/-- Translation of `calculate_multi_factor_score` (main.py:286-414).
`sem tx` models `model.encode(tx)` followed by cosine similarity with the
query embedding; `none` models an exception caught by the `try` block
(substituted by `0.0`).  A `none` overall result models an uncaught
`KeyError` from direct indexing of a missing section field. -/
def calculate_multi_factor_score (sem : String → Option ℚ)
    (sec : SectionRec) (query_analysis : QueryAnalysis) : Option ℚ := do
  let st ← sec.section_title
  let tx ← sec.text
  let doc ← sec.document
  let text := lowerStr (st ++ " " ++ tx)
  let title := lowerStr st
  let document := lowerStr doc
  let w1 : ℚ := 4/10
  let w2 : ℚ := 3/10
  let w3 : ℚ := 2/10
  let w4 : ℚ := 1/10
  let semantic_score := (sem tx).getD 0
  let core_entities := query_analysis.core_entities
  let positive_constraints := query_analysis.constraints.positive
  let keyword_score : ℚ :=
    core_entities.foldl (fun acc e => if strIn e text then acc + 1 else acc) 0
  let keyword_score :=
    positive_constraints.foldl
      (fun acc c => if strIn c text then acc + 3/2 else acc) keyword_score
  let total_keywords := core_entities.length + positive_constraints.length
  let keyword_score :=
    if total_keywords > 0 then keyword_score / total_keywords
    else keyword_score
  let title_score : ℚ :=
    core_entities.foldl (fun acc e => if strIn e title then acc + 2 else acc) 0
  let title_score :=
    positive_constraints.foldl
      (fun acc c => if strIn c title then acc + 5/2 else acc) title_score
  let title_score :=
    if total_keywords > 0 then title_score / total_keywords else title_score
  let penalty_score : ℚ :=
    query_analysis.constraints.negative.foldl
      (fun acc c => if strIn c text then acc + 2 else acc) 0
  let dps := document_priority_score query_analysis.persona text document
  let context := query_analysis.context
  let keyword_score :=
    if context.group_size = some "large" &&
        group_keywords.any (fun k => strIn k text) then
      keyword_score + 1/2
    else keyword_score
  let keyword_score :=
    if context.age_group = some "young" &&
        youth_keywords.any (fun k => strIn k text) then
      keyword_score + 3/10
    else keyword_score
  pure (w1 * semantic_score + w2 * keyword_score + w3 * title_score -
    w4 * penalty_score + dps)

/-- Specification-side semantic component (spec §4.4 "Semantic"): cosine
similarity of the section text's embedding with the query vector, `0.0` on
embedding failure.  Written from the spec's words, to be compared with the
source translation `calculate_multi_factor_score`. -/
def spec_semantic_component (sem : String → Option ℚ) (tx : String) : ℚ :=
  (sem tx).getD 0

/-- Specification-side keyword component (spec §4.4 "Keyword" with the
context bonuses of §4.4 "Context bonuses" folded in), written from the
spec's words: entity hits add `1.0`, positive-constraint hits add `1.5`,
divided by the keyword denominator (`0` when the denominator is `0`), plus
the group-size bonus `0.5` and the age-group bonus `0.3`. -/
def spec_keyword_component (qa : QueryAnalysis) (text : String) : ℚ :=
  let n := qa.core_entities.length + qa.constraints.positive.length
  let hits : ℚ := (qa.core_entities.countP (fun e => strIn e text) : ℚ) * 1 +
    (qa.constraints.positive.countP (fun c => strIn c text) : ℚ) * (3/2)
  (if n > 0 then hits / n else 0) +
    (if qa.context.group_size = some "large" &&
        group_keywords.any (fun k => strIn k text) then (1 : ℚ)/2 else 0) +
    (if qa.context.age_group = some "young" &&
        youth_keywords.any (fun k => strIn k text) then (3 : ℚ)/10 else 0)

/-- Specification-side title component (spec §4.4 "Title"): entity hits in
the title add `2.0`, positive-constraint hits add `2.5`, normalized by the
same denominator as the keyword component. -/
def spec_title_component (qa : QueryAnalysis) (title : String) : ℚ :=
  let n := qa.core_entities.length + qa.constraints.positive.length
  let hits : ℚ := (qa.core_entities.countP (fun e => strIn e title) : ℚ) * 2 +
    (qa.constraints.positive.countP (fun c => strIn c title) : ℚ) * (5/2)
  if n > 0 then hits / n else 0

/-- Specification-side penalty component (spec §4.4 "Penalty"): `2.0` per
negative-constraint hit in the combined text, unnormalized. -/
def spec_penalty_component (qa : QueryAnalysis) (text : String) : ℚ :=
  2 * (qa.constraints.negative.countP (fun c => strIn c text) : ℚ)

/-- Raw section of a loaded document structure (`doc_structure['sections']`
entries, all keys optional because the loader uses `.get`). -/
structure RawSection where
  page_number : Option Int
  heading : Option String
  text : Option String
  deriving DecidableEq, Repr

/-- Loaded document structure consumed by `extract_sections`. -/
structure DocStructure where
  filename : Option String
  sections : Option (List RawSection)
  deriving DecidableEq, Repr

/-- Loop body of `extract_sections` (main.py:506-515); the `filename` key
is read inside the loop, so it raises only when at least one section
exists. -/
def extract_sections_loop (fn : Option String) :
    List RawSection → Option (List SectionRec)
  | [] => some []
  | s :: rest => do
      let filename ← fn
      let rest' ← extract_sections_loop fn rest
      pure ({ document := some filename,
              page_number := s.page_number.getD 1,
              section_title := some (s.heading.getD "Unknown"),
              text := some (s.text.getD ""),
              similarity_score := 0,
              importance_rank := 0 } :: rest')

/-- Translation of `extract_sections` (main.py:502-517). -/
def extract_sections (doc_structure : DocStructure) :
    Option (List SectionRec) :=
  extract_sections_loop doc_structure.filename (doc_structure.sections.getD [])

/-- Descending stable comparison on the written-back similarity score,
modelling `sorted(sections, key=lambda x: x['similarity_score'],
reverse=True)`. -/
def score_desc (a b : SectionRec) : Bool := b.similarity_score ≤ a.similarity_score

/-- Scoring loop of `analyze_sections` (main.py:531-534): writes the
multi-factor score into each section in input order; a raised exception
(`none`) aborts the whole batch. -/
def score_sections (sem : String → Option ℚ) (qa : QueryAnalysis) :
    List SectionRec → Option (List SectionRec)
  | [] => some []
  | s :: rest => do
      let sc ← calculate_multi_factor_score sem s qa
      let rest' ← score_sections sem qa rest
      pure ({ s with similarity_score := sc } :: rest')

/-- Rank-assignment loop of `analyze_sections` (main.py:540-541):
`importance_rank` is overwritten with the 1-based position. -/
def addRanks : Nat → List SectionRec → List SectionRec
  | _, [] => []
  | n, s :: rest => { s with importance_rank := n } :: addRanks (n+1) rest

/-- Translation of `analyze_sections` (main.py:519-543). -/
def analyze_sections (ece : String → List String)
    (findall : String → String → List String) (sem : String → Option ℚ)
    (sections : List SectionRec) (persona job_to_be_done : String) :
    Option (List SectionRec) := do
  let query_analysis := analyze_query_structure ece findall persona job_to_be_done
  let scored ← score_sections sem query_analysis sections
  let ranked_sections := scored.mergeSort score_desc
  pure (addRanks 1 ranked_sections)

/-- Sentence scoring of `intelligent_subsection_analysis`
(main.py:441-469).  `ssem sen` models `model.encode(sen)` plus cosine
similarity with the query embedding; `none` models the caught exception
(`pass`, i.e. no semantic contribution). -/
def sentence_score (qa : QueryAnalysis) (ssem : String → Option ℚ)
    (sentence : String) : ℚ :=
  let s : ℚ := qa.core_entities.foldl
    (fun acc e => if strIn e (lowerStr sentence) then acc + 1 else acc) 0
  let s := qa.constraints.positive.foldl
    (fun acc c => if strIn c (lowerStr sentence) then acc + 3/2 else acc) s
  let s := qa.constraints.negative.foldl
    (fun acc c => if strIn c (lowerStr sentence) then acc - 2 else acc) s
  match ssem sentence with
  | some v => s + v
  | none => s

/-- Descending stable comparison on sentence scores, modelling
`sentence_scores.sort(key=lambda x: x[1], reverse=True)`. -/
def sent_desc (a b : String × ℚ) : Bool := b.2 ≤ a.2

/-- Per-section loop of `intelligent_subsection_analysis`
(main.py:433-483). -/
def subsection_loop (qa : QueryAnalysis) (sent_tok : String → List String)
    (ssem : String → Option ℚ) : List SectionRec → Option (List SubResult)
  | [] => some []
  | s :: rest => do
      let tx ← s.text
      let sentence_scores := (sent_tok tx).map
        (fun sen => (sen, sentence_score qa ssem sen))
      let top_sentences := (sentence_scores.mergeSort sent_desc).take 3
      let refined_text := joinSep ". "
        ((top_sentences.filter (fun p => decide (0 < p.2))).map Prod.fst)
      if refined_text ≠ "" then do
        let doc ← s.document
        let rest' ← subsection_loop qa sent_tok ssem rest
        pure (⟨doc, s.page_number, refined_text⟩ :: rest')
      else subsection_loop qa sent_tok ssem rest

/-- Translation of `intelligent_subsection_analysis` (main.py:416-485).
`sent_tok` models `nltk.sent_tokenize`. -/
def intelligent_subsection_analysis (ece : String → List String)
    (findall : String → String → List String)
    (sent_tok : String → List String) (ssem : String → Option ℚ)
    (sections : List SectionRec) (persona job_to_be_done : String) :
    Option (List SubResult) :=
  let query_analysis := analyze_query_structure ece findall persona job_to_be_done
  subsection_loop query_analysis sent_tok ssem (sections.take 5)

/-- Specification-side per-section pinpoint extraction (spec §4.6),
written from the spec's words: score the sentences, sort descending
(stable), take the top 3, join the strictly-positive ones with ". ", and
emit a record only when the join is non-empty.  `some none` means the
section is analyzed but omitted from the output. -/
def pinpoint_excerpt (qa : QueryAnalysis) (sent_tok : String → List String)
    (ssem : String → Option ℚ) (s : SectionRec) :
    Option (Option SubResult) := do
  let tx ← s.text
  let scored := (sent_tok tx).map (fun sen => (sen, sentence_score qa ssem sen))
  let top := (scored.mergeSort sent_desc).take 3
  let refined := joinSep ". "
    ((top.filter (fun p => decide (0 < p.2))).map Prod.fst)
  if refined ≠ "" then do
    let doc ← s.document
    pure (some ⟨doc, s.page_number, refined⟩)
  else pure none

/-- Metrics record produced by `generate_performance_metrics`. -/
structure Metrics where
  total_sections : ℕ
  avg_confidence : ℚ
  domain_coverage : ℚ
  constraint_satisfaction : ℚ
  deriving DecidableEq, Repr

/-- Translation of `calculate_confidence_score` (main.py:557-587). -/
def calculate_confidence_score (sec : SectionRec) (qa : QueryAnalysis) :
    Option ℚ := do
  let st ← sec.section_title
  let tx ← sec.text
  let text := lowerStr (st ++ " " ++ tx)
  let title := lowerStr st
  let confidence_factors : ℚ :=
    if qa.core_entities.any (fun e => strIn e title) then 3/10 else 0
  let positive_matches := qa.constraints.positive.countP (fun c => strIn c text)
  let negative_matches := qa.constraints.negative.countP (fun c => strIn c text)
  let confidence_factors := confidence_factors +
    (positive_matches : ℚ) * (2/10) - (negative_matches : ℚ) * (3/10)
  let doc ← sec.document
  let document := lowerStr doc
  let confidence_factors :=
    if strIn "mains" document && strIn "food contractor" (lowerStr qa.persona)
    then confidence_factors + 2/10 else confidence_factors
  let text_length := tx.length
  let confidence_factors :=
    if 100 ≤ text_length ∧ text_length ≤ 1000
    then confidence_factors + 1/10 else confidence_factors
  pure (min 1 (max 0 confidence_factors))

/-- Confidence loop of `generate_performance_metrics` (main.py:601-603). -/
def conf_loop (qa : QueryAnalysis) : List SectionRec → Option (List ℚ)
  | [] => some []
  | s :: rest => do
      let c ← calculate_confidence_score s qa
      let rest' ← conf_loop qa rest
      pure (c :: rest')

/-- Document-name extraction of `generate_performance_metrics`
(main.py:606). -/
def docs_loop : List SectionRec → Option (List String)
  | [] => some []
  | s :: rest => do
      let d ← s.document
      let rest' ← docs_loop rest
      pure (d :: rest')

/-- Constraint-occurrence loop of `generate_performance_metrics`
(main.py:613-617): every (section, constraint) co-occurrence among the
top 5 sections counts once, so a constraint found in several sections is
counted several times. -/
def satisfied_loop (qa : QueryAnalysis) : List SectionRec → Option ℕ
  | [] => some 0
  | s :: rest => do
      let st ← s.section_title
      let tx ← s.text
      let text := lowerStr (st ++ " " ++ tx)
      let cnt := qa.constraints.positive.countP (fun c => strIn c text)
      let rest' ← satisfied_loop qa rest
      pure (cnt + rest')

/-- Translation of `generate_performance_metrics` (main.py:589-622). -/
def generate_performance_metrics (ranked_sections : List SectionRec)
    (qa : QueryAnalysis) : Option Metrics :=
  if ranked_sections.isEmpty then some ⟨ranked_sections.length, 0, 0, 0⟩
  else do
    let confidences ← conf_loop qa (ranked_sections.take 10)
    let avg_confidence := confidences.sum / (confidences.length : ℚ)
    let docs ← docs_loop (ranked_sections.take 10)
    let unique_docs := docs.dedup.length
    let domain_coverage :=
      (unique_docs : ℚ) / ((min 10 ranked_sections.length : ℕ) : ℚ)
    let satisfied_constraints ← satisfied_loop qa (ranked_sections.take 5)
    let total_constraints := qa.constraints.positive.length
    let constraint_satisfaction :=
      if total_constraints > 0 then
        (satisfied_constraints : ℚ) / (total_constraints : ℚ)
      else 0
    pure ⟨ranked_sections.length, avg_confidence, domain_coverage,
      constraint_satisfaction⟩

/-- Observer counting, from the spec's description as amended for claim
C7, the (section, constraint) co-occurrences among the first five
sections: the sum over those sections of the number of positive
constraints occurring in the section's combined title-plus-text. -/
def spec_occurrence_count (qa : QueryAnalysis) (secs : List SectionRec) : ℕ :=
  ((secs.take 5).map (fun s => qa.constraints.positive.countP
    (fun c => strIn c (lowerStr ((s.section_title.getD "") ++ " " ++
      (s.text.getD "")))))).sum

/-- Observer erasing the mutable `importance_rank` field, used to state
that ranking does not depend on it. -/
def clear_rank (s : SectionRec) : SectionRec := { s with importance_rank := 0 }

/-- Content equality of section records: agreement on every field the
scorer reads (everything except the mutable `similarity_score` and
`importance_rank`). -/
def content_eq (a b : SectionRec) : Prop :=
  a.document = b.document ∧ a.page_number = b.page_number ∧
    a.section_title = b.section_title ∧ a.text = b.text

/-- Observer returning the `importance_rank` of the first ranked section
carrying the given page number. -/
def rank_of_page (out : List SectionRec) (pn : Int) : Option ℕ :=
  (out.find? (fun s => s.page_number == pn)).map (fun s => s.importance_rank)

/-- Embedding stub returning similarity `0` for every text, used as a
concrete instantiation in witnesses. -/
def sem0 : String → Option ℚ := fun _ => some 0

/-- Concrete structured query: one core entity "apple", no constraints,
neutral context, empty persona (realizable as
`analyze_query_structure (fun _ => ["apple"]) (fun _ _ => []) "" "apple"`). -/
def qa_ex1 : QueryAnalysis :=
  analyze_query_structure (fun _ => ["apple"]) (fun _ _ => []) "" "apple"

/-- Concrete section whose title matches the query entity "apple". -/
def sec_ex1 : SectionRec :=
  ⟨some "doc.pdf", 1, some "Apple pie", some "tasty", 0, 0⟩

/-- Concrete section record lacking the `text` key. -/
def sec_no_text : SectionRec := ⟨some "doc.pdf", 1, some "Title", none, 0, 0⟩

/-- Concrete loaded document structure with one raw section missing every
optional key. -/
def ds_ex : DocStructure := ⟨some "f.pdf", some [⟨none, none, none⟩]⟩

/-- Concrete food-contractor query (spec §8 example scenario, with the
external extractors stubbed). -/
def qa_food : QueryAnalysis :=
  analyze_query_structure (fun _ => ["menu", "dinner"]) (fun _ _ => [])
    "Food Contractor" "Prepare dinner menu"

/-- Concrete section from the spec §8 example, whose document name
contains "Mains". -/
def sec_food : SectionRec :=
  ⟨some "Dinner Ideas - Mains_1.pdf", 3, some "Vegetarian Lasagna",
    some "Layers of pasta", 0, 0⟩

/-- Concrete section for the pinpoint-extraction witness: its only
sentence contains the query entity "apple". -/
def sec_pin : SectionRec := ⟨some "p.pdf", 2, some "T", some "apple pie", 0, 0⟩

/-- Concrete query with exactly one positive constraint "quick"
(realizable through `analyze_query_structure` with a regex oracle that
matches the pace pattern). -/
def qa_quick : QueryAnalysis :=
  analyze_query_structure (fun _ => [])
    (fun p _ => if p = "\\b(quick|fast|easy|simple|convenient)\\b" then
      ["quick"] else [])
    "" "a quick meal"

/-- Concrete section containing "quick", first of the metrics example. -/
def s7a : SectionRec :=
  ⟨some "a.pdf", 1, some "Quick bites", some "quick and tasty", 0, 0⟩

/-- Concrete section containing "quick", second of the metrics example. -/
def s7b : SectionRec :=
  ⟨some "b.pdf", 2, some "Fast food", some "quick service", 0, 0⟩

/-- Concrete section for the ranking witness, first in input order, with
stale score and rank values to be overwritten. -/
def s4a : SectionRec := ⟨some "a.pdf", 1, some "Alpha", some "one", 5, 9⟩

/-- Concrete section for the ranking witness, second in input order. -/
def s4b : SectionRec := ⟨some "b.pdf", 2, some "Beta", some "two", 0, 0⟩

/-- Claim C2: for every structured query the four weights returned by
`calculate_dynamic_weights` sum to `1.0` within a tolerance of `1e-6`
(in the exact-arithmetic model they sum to exactly `1`). -/
theorem claim_C2_weights_sum_to_one (qa : QueryAnalysis) :
    |(calculate_dynamic_weights qa).1 + (calculate_dynamic_weights qa).2.1 +
      (calculate_dynamic_weights qa).2.2.1 +
      (calculate_dynamic_weights qa).2.2.2 - 1| ≤ 1/1000000 := by
  simp only [calculate_dynamic_weights]
  split_ifs <;> norm_num

/-- Folding a guarded accumulator equals the count of hits times the
increment. -/
theorem foldl_add_if (p : String → Bool) (c : ℚ) (l : List String) :
    ∀ init : ℚ,
      l.foldl (fun acc e => if p e then acc + c else acc) init =
        init + (l.countP p : ℚ) * c := by
  induction l with
  | nil => intro init; simp
  | cons e l ih =>
    intro init
    by_cases h : p e
    · simp [List.foldl_cons, ih, List.countP_cons, h]
      ring
    · simp [List.foldl_cons, ih, List.countP_cons, h]

/-- Central refinement lemma: on a section carrying all three string
fields, the translated scorer equals the spec-side weighted combination of
the four components (with the fixed base weights hard-coded at
main.py:299) plus the document-type priority bonus. -/
theorem multi_factor_score_eq_components (sem : String → Option ℚ)
    (sec : SectionRec) (qa : QueryAnalysis) (st tx doc : String)
    (hst : sec.section_title = some st) (htx : sec.text = some tx)
    (hdoc : sec.document = some doc) :
    calculate_multi_factor_score sem sec qa = some (
      (4/10) * spec_semantic_component sem tx +
      (3/10) * spec_keyword_component qa (lowerStr (st ++ " " ++ tx)) +
      (2/10) * spec_title_component qa (lowerStr st) -
      (1/10) * spec_penalty_component qa (lowerStr (st ++ " " ++ tx)) +
      document_priority_score qa.persona (lowerStr (st ++ " " ++ tx))
        (lowerStr doc)) := by
  simp only [calculate_multi_factor_score, hst, htx, hdoc,
    Option.bind_eq_bind, Option.some_bind, Option.pure_def,
    spec_semantic_component, spec_keyword_component, spec_title_component,
    spec_penalty_component]
  rw [foldl_add_if, foldl_add_if, foldl_add_if, foldl_add_if, foldl_add_if]
  simp only [Option.some.injEq]
  rcases Nat.eq_zero_or_pos
    (qa.core_entities.length + qa.constraints.positive.length) with hn | hn
  · have he : qa.core_entities = [] := by
      rw [← List.length_eq_zero]; omega
    have hp : qa.constraints.positive = [] := by
      rw [← List.length_eq_zero]; omega
    simp only [he, hp, List.countP_nil, List.length_nil, Nat.add_zero,
      Nat.cast_zero, gt_iff_lt, lt_self_iff_false, if_false]
    split_ifs <;> ring
  · simp only [if_pos hn, gt_iff_lt]
    split_ifs <;> ring

/-- Normal form of the concrete query `qa_ex1`. -/
theorem qa_ex1_eval :
    qa_ex1 = ⟨["apple"], ⟨[], []⟩, ⟨none, none, "normal", "medium"⟩, ""⟩ := by
  decide

/-- Claim C1 (counterexample): at the concrete query `qa_ex1` and section
`sec_ex1`, the score produced by `calculate_multi_factor_score` (`7/10`)
differs from the combination of its components under the weights returned
by `calculate_dynamic_weights` for that query (`4/5`): the scorer
hard-codes the base weights and never consults the dynamic ones. -/
theorem claim_C1_counterexample :
    calculate_multi_factor_score sem0 sec_ex1 qa_ex1 ≠
      some ((calculate_dynamic_weights qa_ex1).1 *
          spec_semantic_component sem0 "tasty" +
        (calculate_dynamic_weights qa_ex1).2.1 *
          spec_keyword_component qa_ex1 (lowerStr ("Apple pie" ++ " " ++ "tasty")) +
        (calculate_dynamic_weights qa_ex1).2.2.1 *
          spec_title_component qa_ex1 (lowerStr "Apple pie") -
        (calculate_dynamic_weights qa_ex1).2.2.2 *
          spec_penalty_component qa_ex1 (lowerStr ("Apple pie" ++ " " ++ "tasty")) +
        document_priority_score qa_ex1.persona
          (lowerStr ("Apple pie" ++ " " ++ "tasty")) (lowerStr "doc.pdf")) := by
  intro h
  rw [multi_factor_score_eq_components sem0 sec_ex1 qa_ex1 "Apple pie" "tasty"
    "doc.pdf" rfl rfl rfl] at h
  simp only [Option.some.injEq] at h
  rw [show qa_ex1 = ⟨["apple"], ⟨[], []⟩, ⟨none, none, "normal", "medium"⟩, ""⟩
    from by decide] at h
  simp +decide [spec_semantic_component, spec_keyword_component,
    spec_title_component, spec_penalty_component, document_priority_score,
    sem0, calculate_dynamic_weights] at h
  norm_num at h

/-- Claim C1 (amended): for every query and every section carrying its
three string fields, the Multi-Factor Scorer combines its components as
`w_sem*semantic + w_kw*keyword + w_title*title − w_pen*penalty +
priority_bonus` with the FIXED base weights `(0.4, 0.3, 0.2, 0.1)`
hard-coded at main.py:299 — not with the weights returned by
`calculate_dynamic_weights`, which the scorer never consults. -/
theorem claim_C1_amended (sem : String → Option ℚ) (sec : SectionRec)
    (qa : QueryAnalysis) (st tx doc : String)
    (hst : sec.section_title = some st) (htx : sec.text = some tx)
    (hdoc : sec.document = some doc) :
    calculate_multi_factor_score sem sec qa = some (
      (4/10) * spec_semantic_component sem tx +
      (3/10) * spec_keyword_component qa (lowerStr (st ++ " " ++ tx)) +
      (2/10) * spec_title_component qa (lowerStr st) -
      (1/10) * spec_penalty_component qa (lowerStr (st ++ " " ++ tx)) +
      document_priority_score qa.persona (lowerStr (st ++ " " ++ tx))
        (lowerStr doc)) :=
  multi_factor_score_eq_components sem sec qa st tx doc hst htx hdoc

/-- Witness for claim C1's amended theorem at the concrete query `qa_ex1`
and section `sec_ex1`. -/
theorem claim_C1_witness :
    calculate_multi_factor_score sem0 sec_ex1 qa_ex1 = some (
      (4/10) * spec_semantic_component sem0 "tasty" +
      (3/10) * spec_keyword_component qa_ex1 (lowerStr ("Apple pie" ++ " " ++ "tasty")) +
      (2/10) * spec_title_component qa_ex1 (lowerStr "Apple pie") -
      (1/10) * spec_penalty_component qa_ex1 (lowerStr ("Apple pie" ++ " " ++ "tasty")) +
      document_priority_score qa_ex1.persona
        (lowerStr ("Apple pie" ++ " " ++ "tasty")) (lowerStr "doc.pdf")) :=
  claim_C1_amended sem0 sec_ex1 qa_ex1 "Apple pie" "tasty" "doc.pdf" rfl rfl rfl

/-- Fields produced by `extract_sections_loop` are always present. -/
theorem extract_sections_loop_fields (fn : Option String) :
    ∀ (l : List RawSection) (secs : List SectionRec),
      extract_sections_loop fn l = some secs →
      ∀ s ∈ secs, ∃ a b c,
        s.document = some a ∧ s.section_title = some b ∧ s.text = some c := by
  intro l
  induction l with
  | nil =>
    intro secs h s hs
    simp only [extract_sections_loop, Option.some.injEq] at h
    subst h
    simp at hs
  | cons r rest ih =>
    intro secs h s hs
    cases hfn : fn with
    | none => rw [extract_sections_loop, hfn] at h; simp at h
    | some filename =>
      rw [extract_sections_loop, hfn] at h
      cases hrest : extract_sections_loop (some filename) rest with
      | none => rw [hrest] at h; simp at h
      | some rest' =>
        rw [hrest] at h
        simp only [Option.bind_eq_bind, Option.some_bind, Option.pure_def,
          Option.some.injEq] at h
        subst h
        rcases List.mem_cons.mp hs with hs | hs
        · subst hs
          exact ⟨filename, r.heading.getD "Unknown", r.text.getD "", rfl, rfl, rfl⟩
        · exact ih rest' (by rw [hfn]; exact hrest) s hs

/-- Claim C3 (counterexample): a section record lacking its `text` key
makes `calculate_multi_factor_score` raise (`none`), rather than being
scored with the missing field treated as the empty string — while the
same record with `text = ""` is scored normally. -/
theorem claim_C3_counterexample :
    calculate_multi_factor_score sem0 sec_no_text qa_ex1 = none ∧
    (calculate_multi_factor_score sem0
      { sec_no_text with text := some "" } qa_ex1).isSome = true := by
  constructor
  · rfl
  · rw [multi_factor_score_eq_components sem0 _ qa_ex1 "Title" "" "doc.pdf"
      rfl rfl rfl]
    rfl

/-- Claim C3 (amended): the tolerance for missing fields lives in the
loader, not in the scorer: every section produced by `extract_sections`
carries all three string fields (a missing heading becomes "Unknown" and
missing text becomes the empty string), and every such section is scored
(`calculate_multi_factor_score` returns a value, for any embedding
function and any query) rather than excluded. -/
theorem claim_C3_amended (ds : DocStructure) (secs : List SectionRec)
    (h : extract_sections ds = some secs) :
    ∀ s ∈ secs, s.document.isSome = true ∧ s.section_title.isSome = true ∧
      s.text.isSome = true ∧
      ∀ (sem : String → Option ℚ) (qa : QueryAnalysis),
        (calculate_multi_factor_score sem s qa).isSome = true := by
  intro s hs
  obtain ⟨a, b, c, hd, ht, htx⟩ :=
    extract_sections_loop_fields ds.filename (ds.sections.getD []) secs h s hs
  refine ⟨by simp [hd], by simp [ht], by simp [htx], fun sem qa => ?_⟩
  rw [multi_factor_score_eq_components sem s qa b c a ht htx hd]
  rfl

/-- Witness for claim C3's amended theorem at the concrete document
structure `ds_ex`. -/
theorem claim_C3_witness :
    (calculate_multi_factor_score sem0
      ⟨some "f.pdf", 1, some "Unknown", some "", 0, 0⟩ qa_ex1).isSome = true :=
  (claim_C3_amended ds_ex
    [⟨some "f.pdf", 1, some "Unknown", some "", 0, 0⟩] rfl _
    (by simp)).2.2.2 sem0 qa_ex1

/-- Claim C9: a section whose lowercased document name contains "mains",
scored against a query whose persona contains "food contractor" or whose
lowercased combined title-plus-text contains "menu", receives a
document-type priority bonus of exactly `+3.0`, and the first-match-wins
cascade applies no other branch's bonus: the final score is the base
weighted combination plus exactly `3`. -/
theorem claim_C9_mains_priority_bonus (sem : String → Option ℚ)
    (sec : SectionRec) (qa : QueryAnalysis) (st tx doc : String)
    (hst : sec.section_title = some st) (htx : sec.text = some tx)
    (hdoc : sec.document = some doc)
    (hbranch : strIn "food contractor" (lowerStr qa.persona) = true ∨
      strIn "menu" (lowerStr (st ++ " " ++ tx)) = true)
    (hmains : strIn "mains" (lowerStr doc) = true) :
    document_priority_score qa.persona (lowerStr (st ++ " " ++ tx))
      (lowerStr doc) = 3 ∧
    calculate_multi_factor_score sem sec qa = some (
      (4/10) * spec_semantic_component sem tx +
      (3/10) * spec_keyword_component qa (lowerStr (st ++ " " ++ tx)) +
      (2/10) * spec_title_component qa (lowerStr st) -
      (1/10) * spec_penalty_component qa (lowerStr (st ++ " " ++ tx)) + 3) := by
  have hcond : (strIn "food contractor" (lowerStr qa.persona) ||
      strIn "menu" (lowerStr (st ++ " " ++ tx))) = true := by
    rcases hbranch with h | h <;> simp [h]
  have hm : (strIn "mains" (lowerStr doc) ||
      strIn "main" (lowerStr doc)) = true := by simp [hmains]
  have hdps : document_priority_score qa.persona (lowerStr (st ++ " " ++ tx))
      (lowerStr doc) = 3 := by
    rw [document_priority_score, if_pos hcond, if_pos hm]
  refine ⟨hdps, ?_⟩
  rw [multi_factor_score_eq_components sem sec qa st tx doc hst htx hdoc, hdps]

/-- Witness for claim C9 at the spec §8 example: persona
"Food Contractor", document "Dinner Ideas - Mains_1.pdf". -/
theorem claim_C9_witness :
    document_priority_score qa_food.persona
      (lowerStr ("Vegetarian Lasagna" ++ " " ++ "Layers of pasta"))
      (lowerStr "Dinner Ideas - Mains_1.pdf") = 3 ∧
    calculate_multi_factor_score sem0 sec_food qa_food = some (
      (4/10) * spec_semantic_component sem0 "Layers of pasta" +
      (3/10) * spec_keyword_component qa_food
        (lowerStr ("Vegetarian Lasagna" ++ " " ++ "Layers of pasta")) +
      (2/10) * spec_title_component qa_food (lowerStr "Vegetarian Lasagna") -
      (1/10) * spec_penalty_component qa_food
        (lowerStr ("Vegetarian Lasagna" ++ " " ++ "Layers of pasta")) + 3) :=
  claim_C9_mains_priority_bonus sem0 sec_food qa_food "Vegetarian Lasagna"
    "Layers of pasta" "Dinner Ideas - Mains_1.pdf" rfl rfl rfl
    (Or.inl (by decide)) (by decide)

/-- Claim C8: whenever the lowercased combination of persona and task
text contains "dinner" or "evening", the negative constraint set of the
structured query contains all of "breakfast", "lunch", "morning" and
"afternoon", for every entity extractor and every regex-match oracle. -/
theorem claim_C8_dinner_negative_expansion (ece : String → List String)
    (findall : String → String → List String) (persona job : String)
    (h : strIn "dinner" (lowerStr (persona ++ " " ++ job)) = true ∨
      strIn "evening" (lowerStr (persona ++ " " ++ job)) = true) :
    "breakfast" ∈ (analyze_query_structure ece findall persona job).constraints.negative ∧
    "lunch" ∈ (analyze_query_structure ece findall persona job).constraints.negative ∧
    "morning" ∈ (analyze_query_structure ece findall persona job).constraints.negative ∧
    "afternoon" ∈ (analyze_query_structure ece findall persona job).constraints.negative := by
  have hcond : (strIn "dinner" (lowerStr (persona ++ " " ++ job)) ||
      strIn "evening" (lowerStr (persona ++ " " ++ job))) = true := by
    rcases h with h | h <;> simp [h]
  refine ⟨?_, ?_, ?_, ?_⟩ <;>
    simp [analyze_query_structure, extract_constraints, List.mem_dedup,
      List.mem_append, hcond]

/-- Witness for claim C8 at the concrete request ("Chef",
"plan a dinner party"). -/
theorem claim_C8_witness :
    "breakfast" ∈ (analyze_query_structure (fun _ => []) (fun _ _ => [])
      "Chef" "plan a dinner party").constraints.negative ∧
    "lunch" ∈ (analyze_query_structure (fun _ => []) (fun _ _ => [])
      "Chef" "plan a dinner party").constraints.negative ∧
    "morning" ∈ (analyze_query_structure (fun _ => []) (fun _ _ => [])
      "Chef" "plan a dinner party").constraints.negative ∧
    "afternoon" ∈ (analyze_query_structure (fun _ => []) (fun _ _ => [])
      "Chef" "plan a dinner party").constraints.negative :=
  claim_C8_dinner_negative_expansion (fun _ => []) (fun _ _ => [])
    "Chef" "plan a dinner party" (Or.inl (by decide))

/-- Replacing the embedding function by its total `getD 0` completion does
not change the score of a section carrying its fields: a raised embedding
exception contributes exactly `0.0`. -/
theorem mfs_sem_total_subst (sem : String → Option ℚ) (sec : SectionRec)
    (qa : QueryAnalysis) (st tx doc : String)
    (hst : sec.section_title = some st) (htx : sec.text = some tx)
    (hdoc : sec.document = some doc) :
    calculate_multi_factor_score sem sec qa =
      calculate_multi_factor_score (fun u => some ((sem u).getD 0)) sec qa := by
  rw [multi_factor_score_eq_components sem sec qa st tx doc hst htx hdoc,
    multi_factor_score_eq_components (fun u => some ((sem u).getD 0)) sec qa
      st tx doc hst htx hdoc]
  simp [spec_semantic_component]

/-- Batch version: on a list of sections carrying their fields, the
scoring loop with any partial embedding function equals the loop with its
total completion, and always succeeds. -/
theorem score_sections_sem_total_subst (sem : String → Option ℚ)
    (qa : QueryAnalysis) :
    ∀ l : List SectionRec,
      (∀ s ∈ l, s.document.isSome = true ∧ s.section_title.isSome = true ∧
        s.text.isSome = true) →
      score_sections sem qa l =
        score_sections (fun u => some ((sem u).getD 0)) qa l ∧
      (score_sections sem qa l).isSome = true := by
  intro l
  induction l with
  | nil => intro _; exact ⟨rfl, rfl⟩
  | cons s rest ih =>
    intro hf
    obtain ⟨hd, ht, htx⟩ := hf s (List.mem_cons_self s rest)
    obtain ⟨doc, hdoc⟩ := Option.isSome_iff_exists.mp hd
    obtain ⟨st, hst⟩ := Option.isSome_iff_exists.mp ht
    obtain ⟨tx, htxe⟩ := Option.isSome_iff_exists.mp htx
    obtain ⟨ihe, ihs⟩ := ih (fun t htl => hf t (List.mem_cons_of_mem s htl))
    obtain ⟨rest', hrest⟩ := Option.isSome_iff_exists.mp ihs
    have hsc := multi_factor_score_eq_components sem s qa st tx doc hst htxe hdoc
    constructor
    · rw [score_sections, score_sections,
        ← mfs_sem_total_subst sem s qa st tx doc hst htxe hdoc, ← ihe]
    · simp only [score_sections, hsc, hrest, Option.bind_eq_bind,
        Option.some_bind, Option.pure_def, Option.isSome_some]

/-- Claim C6: an embedding exception (`sem tx = none`) is absorbed as a
semantic contribution of `0.0`: the section still gets a score (equal to
the one computed with the constantly-zero embedding), no failure
propagates, and a whole batch scores identically to the run whose
embedding failures are replaced by `0.0` — so the remaining sections are
unaffected. -/
theorem claim_C6_embedding_failure_recovery (sem : String → Option ℚ) :
    (∀ (sec : SectionRec) (qa : QueryAnalysis) (st tx doc : String),
      sec.section_title = some st → sec.text = some tx →
      sec.document = some doc → sem tx = none →
      calculate_multi_factor_score sem sec qa =
        calculate_multi_factor_score (fun _ => some 0) sec qa ∧
      (calculate_multi_factor_score sem sec qa).isSome = true) ∧
    (∀ (ece : String → List String) (findall : String → String → List String)
      (sections : List SectionRec) (persona job : String),
      (∀ s ∈ sections, s.document.isSome = true ∧
        s.section_title.isSome = true ∧ s.text.isSome = true) →
      analyze_sections ece findall sem sections persona job =
        analyze_sections ece findall (fun u => some ((sem u).getD 0))
          sections persona job ∧
      (analyze_sections ece findall sem sections persona job).isSome = true) := by
  constructor
  · intro sec qa st tx doc hst htx hdoc hfail
    constructor
    · rw [multi_factor_score_eq_components sem sec qa st tx doc hst htx hdoc,
        multi_factor_score_eq_components (fun _ => some 0) sec qa st tx doc
          hst htx hdoc]
      simp [spec_semantic_component, hfail]
    · rw [multi_factor_score_eq_components sem sec qa st tx doc hst htx hdoc]
      rfl
  · intro ece findall sections persona job hfields
    obtain ⟨he, hs⟩ := score_sections_sem_total_subst sem
      (analyze_query_structure ece findall persona job) sections hfields
    obtain ⟨scored, hscored⟩ := Option.isSome_iff_exists.mp hs
    constructor
    · rw [analyze_sections, analyze_sections, he]
    · rw [analyze_sections, hscored]
      rfl

/-- Witness for claim C6 with the always-failing embedding function, the
concrete section `sec_ex1` and the concrete query `qa_ex1`. -/
theorem claim_C6_witness :
    (calculate_multi_factor_score (fun _ => none) sec_ex1 qa_ex1 =
      calculate_multi_factor_score (fun _ => some 0) sec_ex1 qa_ex1 ∧
    (calculate_multi_factor_score (fun _ => none) sec_ex1 qa_ex1).isSome = true) ∧
    (analyze_sections (fun _ => ["apple"]) (fun _ _ => []) (fun _ => none)
        [sec_ex1] "" "apple" =
      analyze_sections (fun _ => ["apple"]) (fun _ _ => [])
        (fun u => some (((fun _ => (none : Option ℚ)) u).getD 0))
        [sec_ex1] "" "apple" ∧
    (analyze_sections (fun _ => ["apple"]) (fun _ _ => []) (fun _ => none)
        [sec_ex1] "" "apple").isSome = true) :=
  ⟨(claim_C6_embedding_failure_recovery (fun _ => none)).1 sec_ex1 qa_ex1
      "Apple pie" "tasty" "doc.pdf" rfl rfl rfl rfl,
    (claim_C6_embedding_failure_recovery (fun _ => none)).2
      (fun _ => ["apple"]) (fun _ _ => []) [sec_ex1] "" "apple"
      (by simp [sec_ex1])⟩

/-- Closed form of the pinpoint-extraction loop: it is the per-section
spec-side emission `pinpoint_excerpt` traversed over the list, with the
omitted sections (`some none`) dropped. -/
theorem subsection_loop_eq_pinpoint (qa : QueryAnalysis)
    (sent_tok : String → List String) (ssem : String → Option ℚ) :
    ∀ l : List SectionRec,
      subsection_loop qa sent_tok ssem l =
        (l.mapM (pinpoint_excerpt qa sent_tok ssem)).map List.reduceOption := by
  intro l
  induction l with
  | nil =>
    rw [subsection_loop, List.mapM_nil]
    rfl
  | cons s rest ih =>
    rw [subsection_loop, List.mapM_cons, pinpoint_excerpt]
    cases hx : s.text with
    | none => rfl
    | some tx =>
      simp only [Option.bind_eq_bind, Option.some_bind]
      by_cases hr : joinSep ". "
          ((((sent_tok tx).map (fun sen => (sen, sentence_score qa ssem sen))).mergeSort
            sent_desc).take 3 |>.filter (fun p => decide (0 < p.2)) |>.map Prod.fst) = ""
      · rw [if_neg (not_not_intro hr), if_neg (not_not_intro hr), ih]
        cases hm : rest.mapM (pinpoint_excerpt qa sent_tok ssem) with
        | none => rfl
        | some bs =>
          simp only [Option.some_bind, Option.map_some', Option.pure_def,
            Option.some.injEq, List.reduceOption_cons_of_none]
      · rw [if_pos hr, if_pos hr]
        cases hd : s.document with
        | none =>
          simp only [Option.bind_eq_bind, Option.none_bind]
          rfl
        | some doc =>
          simp only [Option.bind_eq_bind, Option.some_bind, ih]
          cases hm : rest.mapM (pinpoint_excerpt qa sent_tok ssem) with
          | none => rfl
          | some bs =>
            simp only [Option.map_some', Option.some_bind, Option.pure_def,
              Option.some.injEq, List.reduceOption_cons_of_some]

/-- Every record emitted by the pinpoint-extraction loop has a non-empty
refined text. -/
theorem subsection_loop_no_empty (qa : QueryAnalysis)
    (sent_tok : String → List String) (ssem : String → Option ℚ) :
    ∀ (l : List SectionRec) (out : List SubResult),
      subsection_loop qa sent_tok ssem l = some out →
      ∀ r ∈ out, r.refined_text ≠ "" := by
  intro l
  induction l with
  | nil =>
    intro out h r hr
    simp only [subsection_loop, Option.some.injEq] at h
    subst h
    simp at hr
  | cons s rest ih =>
    intro out h r hr
    rw [subsection_loop] at h
    cases hx : s.text with
    | none => rw [hx] at h; simp at h
    | some tx =>
      rw [hx] at h
      simp only [Option.bind_eq_bind, Option.some_bind] at h
      by_cases hemp : joinSep ". "
          ((((sent_tok tx).map (fun sen => (sen, sentence_score qa ssem sen))).mergeSort
            sent_desc).take 3 |>.filter (fun p => decide (0 < p.2)) |>.map Prod.fst) = ""
      · rw [if_neg (by simpa using hemp)] at h
        exact ih out h r hr
      · rw [if_pos (by simpa using hemp)] at h
        cases hd : s.document with
        | none => rw [hd] at h; simp at h
        | some doc =>
          rw [hd] at h
          cases hrest : subsection_loop qa sent_tok ssem rest with
          | none => rw [hrest] at h; simp at h
          | some rest' =>
            rw [hrest] at h
            simp only [Option.some_bind, Option.pure_def, Option.some.injEq] at h
            subst h
            rcases List.mem_cons.mp hr with hr | hr
            · subst hr; exact hemp
            · exact ih rest' hrest r hr

/-- A section all of whose sentences score at most `0` is analyzed but
omitted (`some none`) by the spec-side emission. -/
theorem pinpoint_excerpt_all_nonpos (qa : QueryAnalysis)
    (sent_tok : String → List String) (ssem : String → Option ℚ)
    (s : SectionRec) (tx : String) (htx : s.text = some tx)
    (hnp : ∀ sen ∈ sent_tok tx, sentence_score qa ssem sen ≤ 0) :
    pinpoint_excerpt qa sent_tok ssem s = some none := by
  have hfil : ((((sent_tok tx).map
      (fun sen => (sen, sentence_score qa ssem sen))).mergeSort
        sent_desc).take 3).filter (fun p => decide (0 < p.2)) = [] := by
    rw [List.filter_eq_nil_iff]
    intro p hp
    have hp1 : p ∈ ((sent_tok tx).map
        (fun sen => (sen, sentence_score qa ssem sen))).mergeSort sent_desc :=
      (List.take_sublist 3 _).mem hp
    have hp2 : p ∈ (sent_tok tx).map
        (fun sen => (sen, sentence_score qa ssem sen)) :=
      (List.mergeSort_perm _ sent_desc).mem_iff.mp hp1
    obtain ⟨sen, hsen, hpe⟩ := List.mem_map.mp hp2
    have : p.2 ≤ 0 := by rw [← hpe]; exact hnp sen hsen
    simp only [decide_eq_true_eq]
    exact not_lt.mpr this
  rw [pinpoint_excerpt, htx]
  simp [hfil, joinSep]

/-- Claim C5: pinpoint extraction analyzes only the first 5 ranked
sections; its output is exactly the per-section emissions (sort sentences
descending stably, take the top 3, join the strictly-positive ones with
". ", emit iff non-empty); no emitted `RefinedExcerpt` has an empty
`refined_text`; and a section whose every sentence scores at most 0 is
omitted (its emission is `none`, hence it is absent from the output). -/
theorem claim_C5_pinpoint_extraction (ece : String → List String)
    (findall : String → String → List String)
    (sent_tok : String → List String) (ssem : String → Option ℚ)
    (sections : List SectionRec) (persona job : String) :
    intelligent_subsection_analysis ece findall sent_tok ssem sections
        persona job =
      intelligent_subsection_analysis ece findall sent_tok ssem
        (sections.take 5) persona job ∧
    intelligent_subsection_analysis ece findall sent_tok ssem sections
        persona job =
      ((sections.take 5).mapM (pinpoint_excerpt
        (analyze_query_structure ece findall persona job) sent_tok ssem)).map
        List.reduceOption ∧
    (∀ out, intelligent_subsection_analysis ece findall sent_tok ssem
        sections persona job = some out →
      ∀ r ∈ out, r.refined_text ≠ "") ∧
    (∀ (s : SectionRec) (tx : String), s.text = some tx →
      (∀ sen ∈ sent_tok tx, sentence_score
        (analyze_query_structure ece findall persona job) ssem sen ≤ 0) →
      pinpoint_excerpt (analyze_query_structure ece findall persona job)
        sent_tok ssem s = some none) := by
  refine ⟨?_, ?_, ?_, ?_⟩
  · rw [intelligent_subsection_analysis, intelligent_subsection_analysis,
      List.take_take, min_self]
  · rw [intelligent_subsection_analysis, subsection_loop_eq_pinpoint]
  · intro out h r hr
    rw [intelligent_subsection_analysis] at h
    exact subsection_loop_no_empty _ sent_tok ssem (sections.take 5) out h r hr
  · intro s tx htx hnp
    exact pinpoint_excerpt_all_nonpos _ sent_tok ssem s tx htx hnp

/-- Witness for claim C5 at a one-section list whose single sentence
scores `1 > 0` (so it is emitted), and at the section `sec_ex1` whose
single sentence scores `0` (so it is omitted). -/
theorem claim_C5_witness :
    intelligent_subsection_analysis (fun _ => ["apple"]) (fun _ _ => [])
        (fun t => [t]) (fun _ => none) [sec_pin] "" "apple" =
      intelligent_subsection_analysis (fun _ => ["apple"]) (fun _ _ => [])
        (fun t => [t]) (fun _ => none) ([sec_pin].take 5) "" "apple" ∧
    intelligent_subsection_analysis (fun _ => ["apple"]) (fun _ _ => [])
        (fun t => [t]) (fun _ => none) [sec_pin] "" "apple" =
      some [⟨"p.pdf", 2, "apple pie"⟩] ∧
    (⟨"p.pdf", 2, "apple pie"⟩ : SubResult).refined_text ≠ "" ∧
    pinpoint_excerpt (analyze_query_structure (fun _ => ["apple"])
        (fun _ _ => []) "" "apple") (fun t => [t]) (fun _ => none)
      sec_ex1 = some none := by
  obtain ⟨h1, h2, h3, h4⟩ := claim_C5_pinpoint_extraction
    (fun _ => ["apple"]) (fun _ _ => []) (fun t => [t]) (fun _ => none)
    [sec_pin] "" "apple"
  have hqa : analyze_query_structure (fun _ => ["apple"]) (fun _ _ => [])
      "" "apple" =
      ⟨["apple"], ⟨[], []⟩, ⟨none, none, "normal", "medium"⟩, ""⟩ := by decide
  have hsc : sentence_score (analyze_query_structure (fun _ => ["apple"])
      (fun _ _ => []) "" "apple") (fun _ => none) "apple pie" = 1 := by
    rw [hqa]
    simp +decide [sentence_score]
  have heval : intelligent_subsection_analysis (fun _ => ["apple"])
      (fun _ _ => []) (fun t => [t]) (fun _ => none) [sec_pin] "" "apple" =
      some [⟨"p.pdf", 2, "apple pie"⟩] := by
    rw [h2]
    rw [show ([sec_pin].take 5) = [sec_pin] from rfl, List.mapM_cons,
      List.mapM_nil, pinpoint_excerpt]
    simp only [sec_pin, Option.bind_eq_bind, Option.some_bind, List.map_cons,
      List.map_nil, hsc, List.mergeSort_singleton, List.take_cons,
      List.take_nil, List.filter_cons, List.filter_nil]
    norm_num [joinSep]
    simp +decide [List.reduceOption]
  refine ⟨h1, heval, ?_, ?_⟩
  · exact h3 [⟨"p.pdf", 2, "apple pie"⟩] heval _ (List.mem_singleton.mpr rfl)
  · refine h4 sec_ex1 "tasty" rfl ?_
    intro sen hsen
    rw [List.mem_singleton.mp hsen, hqa]
    simp +decide [sentence_score]

/-- The confidence loop succeeds on sections carrying their fields. -/
theorem conf_loop_isSome (qa : QueryAnalysis) :
    ∀ l : List SectionRec,
      (∀ s ∈ l, s.section_title.isSome = true ∧ s.text.isSome = true ∧
        s.document.isSome = true) →
      (conf_loop qa l).isSome = true := by
  intro l
  induction l with
  | nil => intro _; rfl
  | cons s rest ih =>
    intro hf
    obtain ⟨ht, htx, hd⟩ := hf s (List.mem_cons_self s rest)
    obtain ⟨st, hst⟩ := Option.isSome_iff_exists.mp ht
    obtain ⟨tx, htxe⟩ := Option.isSome_iff_exists.mp htx
    obtain ⟨doc, hdoc⟩ := Option.isSome_iff_exists.mp hd
    obtain ⟨rest', hrest⟩ := Option.isSome_iff_exists.mp
      (ih (fun t htl => hf t (List.mem_cons_of_mem s htl)))
    rw [conf_loop, calculate_confidence_score, hst, htxe, hdoc, hrest]
    rfl

/-- The document-name loop succeeds on sections carrying their document
field. -/
theorem docs_loop_isSome :
    ∀ l : List SectionRec, (∀ s ∈ l, s.document.isSome = true) →
      (docs_loop l).isSome = true := by
  intro l
  induction l with
  | nil => intro _; rfl
  | cons s rest ih =>
    intro hf
    obtain ⟨doc, hdoc⟩ := Option.isSome_iff_exists.mp
      (hf s (List.mem_cons_self s rest))
    obtain ⟨rest', hrest⟩ := Option.isSome_iff_exists.mp
      (ih (fun t htl => hf t (List.mem_cons_of_mem s htl)))
    rw [docs_loop, hdoc, hrest]
    rfl

/-- The constraint-occurrence loop succeeds on sections carrying their
fields. -/
theorem satisfied_loop_isSome (qa : QueryAnalysis) :
    ∀ l : List SectionRec,
      (∀ s ∈ l, s.section_title.isSome = true ∧ s.text.isSome = true) →
      (satisfied_loop qa l).isSome = true := by
  intro l
  induction l with
  | nil => intro _; rfl
  | cons s rest ih =>
    intro hf
    obtain ⟨ht, htx⟩ := hf s (List.mem_cons_self s rest)
    obtain ⟨st, hst⟩ := Option.isSome_iff_exists.mp ht
    obtain ⟨tx, htxe⟩ := Option.isSome_iff_exists.mp htx
    obtain ⟨rest', hrest⟩ := Option.isSome_iff_exists.mp
      (ih (fun t htl => hf t (List.mem_cons_of_mem s htl)))
    rw [satisfied_loop, hst, htxe, hrest]
    rfl

/-- Value of the constraint-occurrence loop: the sum, over the sections,
of the number of positive constraints occurring in each section's
combined title-plus-text. -/
theorem satisfied_loop_eq_sum (qa : QueryAnalysis) :
    ∀ (l : List SectionRec) (n : ℕ), satisfied_loop qa l = some n →
      n = (l.map (fun s => qa.constraints.positive.countP
        (fun c => strIn c (lowerStr ((s.section_title.getD "") ++ " " ++
          (s.text.getD "")))))).sum := by
  intro l
  induction l with
  | nil =>
    intro n h
    simp only [satisfied_loop, Option.some.injEq] at h
    subst h
    rfl
  | cons s rest ih =>
    intro n h
    rw [satisfied_loop] at h
    cases hst : s.section_title with
    | none => rw [hst] at h; simp at h
    | some st =>
      cases htx : s.text with
      | none => rw [hst, htx] at h; simp at h
      | some tx =>
        rw [hst, htx] at h
        cases hrest : satisfied_loop qa rest with
        | none => rw [hrest] at h; simp at h
        | some m =>
          rw [hrest] at h
          simp only [Option.bind_eq_bind, Option.some_bind, Option.pure_def,
            Option.some.injEq] at h
          subst h
          rw [List.map_cons, List.sum_cons, ← ih m hrest, hst, htx]
          rfl

/-- Central lemma for claim C7: the `constraint_satisfaction` metric is
the number of (section, constraint) co-occurrences among the top 5
sections — counting a constraint once per section it occurs in — divided
by the positive-constraint count. -/
theorem gpm_constraint_satisfaction_eq (ranked : List SectionRec)
    (qa : QueryAnalysis) (m : Metrics)
    (h : generate_performance_metrics ranked qa = some m)
    (hpos : 0 < qa.constraints.positive.length) :
    m.constraint_satisfaction =
      (spec_occurrence_count qa ranked : ℚ) /
        (qa.constraints.positive.length : ℚ) := by
  by_cases hemp : ranked.isEmpty
  · rw [generate_performance_metrics, if_pos hemp] at h
    simp only [Option.some.injEq] at h
    subst h
    have : ranked = [] := List.isEmpty_iff.mp hemp
    subst this
    simp [spec_occurrence_count]
  · rw [generate_performance_metrics, if_neg hemp] at h
    cases hc : conf_loop qa (ranked.take 10) with
    | none => rw [hc] at h; simp at h
    | some cs =>
      rw [hc] at h
      cases hd : docs_loop (ranked.take 10) with
      | none => rw [hd] at h; simp at h
      | some ds =>
        rw [hd] at h
        cases hs : satisfied_loop qa (ranked.take 5) with
        | none => rw [hs] at h; simp at h
        | some sat =>
          rw [hs] at h
          simp only [Option.bind_eq_bind, Option.some_bind, Option.pure_def,
            Option.some.injEq] at h
          subst h
          simp only [gt_iff_lt, hpos, if_pos]
          rw [satisfied_loop_eq_sum qa (ranked.take 5) sat hs]
          rfl

/-- Claim C7 (counterexample): with a single positive constraint "quick"
occurring in both of the two ranked sections, the
`constraint_satisfaction` metric evaluates to `2`, exceeding `1.0` — it
counts the constraint once per section rather than once per distinct
constraint. -/
theorem claim_C7_counterexample :
    (generate_performance_metrics [s7a, s7b] qa_quick).map
      Metrics.constraint_satisfaction = some 2 ∧ ¬ ((2 : ℚ) ≤ 1) := by
  have hsome : (generate_performance_metrics [s7a, s7b] qa_quick).isSome = true := by
    rw [generate_performance_metrics, if_neg (by decide)]
    obtain ⟨cs, hc⟩ := Option.isSome_iff_exists.mp
      (conf_loop_isSome qa_quick (List.take 10 [s7a, s7b]) (by decide))
    obtain ⟨ds, hd⟩ := Option.isSome_iff_exists.mp
      (docs_loop_isSome (List.take 10 [s7a, s7b]) (by decide))
    obtain ⟨sat, hs⟩ := Option.isSome_iff_exists.mp
      (satisfied_loop_isSome qa_quick (List.take 5 [s7a, s7b]) (by decide))
    rw [hc, hd, hs]
    rfl
  obtain ⟨m, hm⟩ := Option.isSome_iff_exists.mp hsome
  have hcs := gpm_constraint_satisfaction_eq [s7a, s7b] qa_quick m hm (by decide)
  rw [show spec_occurrence_count qa_quick [s7a, s7b] = 2 from by decide,
    show qa_quick.constraints.positive.length = 1 from by decide] at hcs
  norm_num at hcs
  rw [hm, Option.map_some', hcs]
  norm_num

/-- Claim C7 (amended): for every ranked list and query with at least one
positive constraint, `constraint_satisfaction` equals the number of
(section, constraint) co-occurrences among the top 5 sections — counting
a constraint again for each further section containing it — divided by
the positive-constraint count; consequently it is not bounded by `1.0`. -/
theorem claim_C7_amended (ranked : List SectionRec) (qa : QueryAnalysis)
    (m : Metrics) (h : generate_performance_metrics ranked qa = some m)
    (hpos : 0 < qa.constraints.positive.length) :
    m.constraint_satisfaction =
      (spec_occurrence_count qa ranked : ℚ) /
        (qa.constraints.positive.length : ℚ) :=
  gpm_constraint_satisfaction_eq ranked qa m h hpos

/-- Witness for claim C7's amended theorem at the concrete two-section
ranking and the query `qa_quick`. -/
theorem claim_C7_witness :
    (generate_performance_metrics [s7a, s7b] qa_quick).map
      Metrics.constraint_satisfaction =
      some ((spec_occurrence_count qa_quick [s7a, s7b] : ℚ) /
        (qa_quick.constraints.positive.length : ℚ)) := by
  have hsome : (generate_performance_metrics [s7a, s7b] qa_quick).isSome = true := by
    rw [generate_performance_metrics, if_neg (by decide)]
    obtain ⟨cs, hc⟩ := Option.isSome_iff_exists.mp
      (conf_loop_isSome qa_quick (List.take 10 [s7a, s7b]) (by decide))
    obtain ⟨ds, hd⟩ := Option.isSome_iff_exists.mp
      (docs_loop_isSome (List.take 10 [s7a, s7b]) (by decide))
    obtain ⟨sat, hs⟩ := Option.isSome_iff_exists.mp
      (satisfied_loop_isSome qa_quick (List.take 5 [s7a, s7b]) (by decide))
    rw [hc, hd, hs]
    rfl
  obtain ⟨m, hm⟩ := Option.isSome_iff_exists.mp hsome
  rw [hm, Option.map_some',
    claim_C7_amended [s7a, s7b] qa_quick m hm (by decide)]

/-- The descending score comparator is transitive. -/
theorem score_desc_trans (a b c : SectionRec) (h1 : score_desc a b = true)
    (h2 : score_desc b c = true) : score_desc a c = true := by
  simp only [score_desc, decide_eq_true_eq] at h1 h2 ⊢
  exact le_trans h2 h1

/-- The descending score comparator is total. -/
theorem score_desc_total (a b : SectionRec) :
    (score_desc a b || score_desc b a) = true := by
  simp only [score_desc, Bool.or_eq_true, decide_eq_true_eq]
  exact le_total b.similarity_score a.similarity_score

/-- Ranks written by `addRanks` are the consecutive positions. -/
theorem addRanks_map_rank :
    ∀ (l : List SectionRec) (n : ℕ),
      (addRanks n l).map SectionRec.importance_rank = List.range' n l.length := by
  intro l
  induction l with
  | nil => intro n; rfl
  | cons s rest ih =>
    intro n
    rw [addRanks, List.map_cons, List.length_cons, List.range'_succ, ih]

/-- `addRanks` does not change the scores. -/
theorem addRanks_map_score :
    ∀ (l : List SectionRec) (n : ℕ),
      (addRanks n l).map SectionRec.similarity_score =
        l.map SectionRec.similarity_score := by
  intro l
  induction l with
  | nil => intro n; rfl
  | cons s rest ih => intro n; rw [addRanks, List.map_cons, List.map_cons, ih]

/-- The scoring loop relates input and output pointwise: each output
record is the input record with the freshly computed score written into
`similarity_score`. -/
theorem score_sections_forall₂ (sem : String → Option ℚ) (qa : QueryAnalysis) :
    ∀ (l m : List SectionRec), score_sections sem qa l = some m →
      List.Forall₂ (fun s t =>
        calculate_multi_factor_score sem s qa = some t.similarity_score ∧
        t = { s with similarity_score := t.similarity_score }) l m := by
  intro l
  induction l with
  | nil =>
    intro m h
    simp only [score_sections, Option.some.injEq] at h
    subst h
    exact List.Forall₂.nil
  | cons s rest ih =>
    intro m h
    rw [score_sections] at h
    cases hsc : calculate_multi_factor_score sem s qa with
    | none => rw [hsc] at h; simp at h
    | some sc =>
      rw [hsc] at h
      cases hrest : score_sections sem qa rest with
      | none => rw [hrest] at h; simp at h
      | some rest' =>
        rw [hrest] at h
        simp only [Option.bind_eq_bind, Option.some_bind, Option.pure_def,
          Option.some.injEq] at h
        subst h
        exact List.Forall₂.cons ⟨hsc, rfl⟩ (ih rest' hrest)

/-- The scoring loop preserves the page numbers, in order. -/
theorem score_sections_map_page (sem : String → Option ℚ) (qa : QueryAnalysis)
    (l m : List SectionRec) (h : score_sections sem qa l = some m) :
    m.map SectionRec.page_number = l.map SectionRec.page_number := by
  have hf := score_sections_forall₂ sem qa l m h
  rw [List.forall₂_iff_get] at hf
  obtain ⟨hlen, hget⟩ := hf
  apply List.ext_get (by simp [hlen])
  intro i h1 h2
  have hi1 : i < l.length := by simpa using h2
  have hi2 : i < m.length := by simpa using h1
  have hrec := (hget i hi1 hi2).2
  simp only [List.get_eq_getElem] at hrec ⊢
  rw [List.getElem_map, List.getElem_map, hrec]

/-- Two positions of a list, in order, form a sublist. -/
theorem pair_get_sublist {α : Type} {l : List α} {i j : ℕ} (hij : i < j)
    (hj : j < l.length) :
    List.Sublist [l.get ⟨i, lt_trans hij hj⟩, l.get ⟨j, hj⟩] l := by
  have h1 : List.Sublist [l.get ⟨i, lt_trans hij hj⟩] (l.take (i+1)) := by
    rw [List.take_succ, List.getElem?_eq_getElem (lt_trans hij hj)]
    exact List.sublist_append_right _ _
  have h2 : List.Sublist [l.get ⟨j, hj⟩] (l.drop (i+1)) := by
    rw [List.singleton_sublist]
    obtain ⟨k, hk⟩ : ∃ k, j = (i + 1) + k := ⟨j - (i+1), by omega⟩
    subst hk
    have hjd : k < (l.drop (i+1)).length := by
      rw [List.length_drop]; omega
    have hgd : (l.drop (i+1))[k] = l[(i+1) + k] := List.getElem_drop l
    rw [List.get_eq_getElem, ← hgd]
    exact List.getElem_mem hjd
  have := List.Sublist.append h1 h2
  rwa [List.take_append_drop] at this

/-- Unfolding of `rank_of_page` on a cons cell. -/
theorem rank_of_page_cons (s : SectionRec) (rest : List SectionRec) (pn : Int) :
    rank_of_page (s :: rest) pn =
      if s.page_number == pn then some s.importance_rank
      else rank_of_page rest pn := by
  rw [rank_of_page, List.find?_cons]
  cases hp : s.page_number == pn <;> simp [hp, rank_of_page]

/-- Every rank found in `addRanks k m` is at least `k`. -/
theorem rank_of_page_addRanks_ge :
    ∀ (m : List SectionRec) (k : ℕ) (pn : Int) (r : ℕ),
      rank_of_page (addRanks k m) pn = some r → k ≤ r := by
  intro m
  induction m with
  | nil => intro k pn r h; simp [addRanks, rank_of_page] at h
  | cons s rest ih =>
    intro k pn r h
    rw [addRanks, rank_of_page_cons] at h
    by_cases hp : s.page_number == pn
    · rw [if_pos hp] at h
      simp only [Option.some.injEq] at h
      omega
    · rw [if_neg hp] at h
      have := ih (k+1) pn r h
      omega

/-- A member's page number is always found by `rank_of_page` over
`addRanks`. -/
theorem rank_of_page_addRanks_mem :
    ∀ (m : List SectionRec) (k : ℕ) (b : SectionRec), b ∈ m →
      ∃ r, rank_of_page (addRanks k m) b.page_number = some r := by
  intro m
  induction m with
  | nil => intro k b hb; simp at hb
  | cons s rest ih =>
    intro k b hb
    rw [addRanks, rank_of_page_cons]
    by_cases hp : s.page_number == b.page_number
    · exact ⟨k, by rw [if_pos hp]⟩
    · rcases List.mem_cons.mp hb with hb | hb
      · subst hb; simp at hp
      · obtain ⟨r, hr⟩ := ih (k+1) b hb
        exact ⟨r, by rw [if_neg hp]; exact hr⟩

/-- Stability transfer: if `[a, b]` is (in that order) a sublist of `m`
and the page numbers of `m` are distinct, then after rank assignment the
rank found for `a`'s page is strictly below the rank found for `b`'s. -/
theorem rank_pair_lt :
    ∀ (m : List SectionRec) (n : ℕ) (a b : SectionRec),
      List.Sublist [a, b] m → (m.map SectionRec.page_number).Nodup →
      ∃ ra rb, rank_of_page (addRanks n m) a.page_number = some ra ∧
        rank_of_page (addRanks n m) b.page_number = some rb ∧ ra < rb := by
  intro m
  induction m with
  | nil => intro n a b h hnd; nomatch h
  | cons c m' ih =>
    intro n a b h hnd
    rw [List.map_cons, List.nodup_cons] at hnd
    obtain ⟨hcn, hnd'⟩ := hnd
    cases h with
    | cons x h' =>
      have ha : a ∈ m' := h'.subset (by simp)
      have hb : b ∈ m' := h'.subset (by simp)
      have hpa : (c.page_number == a.page_number) = false := by
        rw [beq_eq_false_iff_ne]
        intro he
        exact hcn (he ▸ List.mem_map_of_mem SectionRec.page_number ha)
      have hpb : (c.page_number == b.page_number) = false := by
        rw [beq_eq_false_iff_ne]
        intro he
        exact hcn (he ▸ List.mem_map_of_mem SectionRec.page_number hb)
      obtain ⟨ra, rb, hra, hrb, hlt⟩ := ih (n+1) a b h' hnd'
      refine ⟨ra, rb, ?_, ?_, hlt⟩
      · rw [addRanks, rank_of_page_cons, if_neg (by simp [hpa])]
        exact hra
      · rw [addRanks, rank_of_page_cons, if_neg (by simp [hpb])]
        exact hrb
    | cons₂ x h' =>
      have hb : b ∈ m' := List.singleton_sublist.mp h'
      have hpb : (c.page_number == b.page_number) = false := by
        rw [beq_eq_false_iff_ne]
        intro he
        exact hcn (he ▸ List.mem_map_of_mem SectionRec.page_number hb)
      obtain ⟨rb, hrb⟩ := rank_of_page_addRanks_mem m' (n+1) b hb
      have hge := rank_of_page_addRanks_ge m' (n+1) b.page_number rb hrb
      refine ⟨n, rb, ?_, ?_, by omega⟩
      · rw [addRanks, rank_of_page_cons, if_pos (by simp)]
      · rw [addRanks, rank_of_page_cons, if_neg (by simp [hpb])]
        exact hrb

/-- Claim C4: the ranker sorts descending by the computed score with a
stable sort and assigns 1-based ranks: the ranks along the output are
exactly `1..n`, the output scores are descending, and for two input
positions `i < j` with equal computed scores (page numbers kept distinct
so the records can be traced), the section from position `i` receives the
strictly lower `importance_rank`. -/
theorem claim_C4_ranking (ece : String → List String)
    (findall : String → String → List String) (sem : String → Option ℚ)
    (sections : List SectionRec) (persona job : String)
    (out : List SectionRec)
    (hout : analyze_sections ece findall sem sections persona job = some out) :
    out.map SectionRec.importance_rank = List.range' 1 sections.length ∧
    out.Pairwise (fun a b => b.similarity_score ≤ a.similarity_score) ∧
    (∀ i j (hi : i < sections.length) (hj : j < sections.length), i < j →
      (sections.map SectionRec.page_number).Nodup →
      calculate_multi_factor_score sem (sections.get ⟨i, hi⟩)
          (analyze_query_structure ece findall persona job) =
        calculate_multi_factor_score sem (sections.get ⟨j, hj⟩)
          (analyze_query_structure ece findall persona job) →
      ∀ ri rj,
        rank_of_page out (sections.get ⟨i, hi⟩).page_number = some ri →
        rank_of_page out (sections.get ⟨j, hj⟩).page_number = some rj →
        ri < rj) := by
  rw [analyze_sections] at hout
  cases hsc : score_sections sem
      (analyze_query_structure ece findall persona job) sections with
  | none => rw [hsc] at hout; simp at hout
  | some scored =>
    rw [hsc] at hout
    simp only [Option.bind_eq_bind, Option.some_bind, Option.pure_def,
      Option.some.injEq] at hout
    subst hout
    have hperm : (scored.mergeSort score_desc).Perm scored :=
      List.mergeSort_perm scored score_desc
    have hf := score_sections_forall₂ sem
      (analyze_query_structure ece findall persona job) sections scored hsc
    have hlen : sections.length = scored.length := hf.length_eq
    have hmlen : (scored.mergeSort score_desc).length = scored.length :=
      hperm.length_eq
    have hfg := List.forall₂_iff_get.mp hf
    refine ⟨?_, ?_, ?_⟩
    · rw [addRanks_map_rank, hmlen, ← hlen]
    · have hp : List.Pairwise (fun a b => score_desc a b = true)
          (scored.mergeSort score_desc) :=
        List.sorted_mergeSort score_desc_trans score_desc_total scored
      have hp2 : List.Pairwise (fun x y : ℚ => y ≤ x)
          ((scored.mergeSort score_desc).map SectionRec.similarity_score) :=
        List.pairwise_map.mpr (hp.imp (fun hab => by
          simpa [score_desc, decide_eq_true_eq] using hab))
      rw [← addRanks_map_score (scored.mergeSort score_desc) 1] at hp2
      exact List.pairwise_map.mp hp2
    · intro i j hi hj hij hnd hsceq ri rj hri hrj
      have hi' : i < scored.length := hlen ▸ hi
      have hj' : j < scored.length := hlen ▸ hj
      have hsub : List.Sublist
          [scored.get ⟨i, lt_trans hij hj'⟩, scored.get ⟨j, hj'⟩] scored :=
        pair_get_sublist hij hj'
      have heqi := (hfg.2 i hi hi').1
      have heqj := (hfg.2 j hj hj').1
      have hsimeq : (scored.get ⟨i, hi'⟩).similarity_score =
          (scored.get ⟨j, hj'⟩).similarity_score := by
        rw [heqi, heqj] at hsceq
        exact Option.some.injEq _ _ ▸ hsceq
      have hab : score_desc (scored.get ⟨i, hi'⟩) (scored.get ⟨j, hj'⟩) = true := by
        simp only [score_desc, decide_eq_true_eq]
        exact le_of_eq hsimeq.symm
      have hsorted_sub := List.pair_sublist_mergeSort score_desc_trans
        score_desc_total hab hsub
      have hmapeq := score_sections_map_page sem
        (analyze_query_structure ece findall persona job) sections scored hsc
      have hnd1 : (scored.map SectionRec.page_number).Nodup := by
        rw [hmapeq]; exact hnd
      have hnd2 : ((scored.mergeSort score_desc).map
          SectionRec.page_number).Nodup :=
        ((hperm.map SectionRec.page_number).nodup_iff).mpr hnd1
      obtain ⟨ra, rb, hra, hrb, hlt⟩ := rank_pair_lt
        (scored.mergeSort score_desc) 1 _ _ hsorted_sub hnd2
      have hpa : (scored.get ⟨i, hi'⟩).page_number =
          (sections.get ⟨i, hi⟩).page_number := by
        rw [(hfg.2 i hi hi').2]
      have hpb : (scored.get ⟨j, hj'⟩).page_number =
          (sections.get ⟨j, hj⟩).page_number := by
        rw [(hfg.2 j hj hj').2]
      rw [← hpa] at hri
      rw [← hpb] at hrj
      rw [hra] at hri
      rw [hrb] at hrj
      simp only [Option.some.injEq] at hri hrj
      omega

/-- Evaluation helper: the neutral query built from persona "x" and task
"y" with stubbed extractors. -/
theorem qaXY_eval : analyze_query_structure (fun _ => []) (fun _ _ => [])
    "x" "y" = ⟨[], ⟨[], []⟩, ⟨none, none, "normal", "medium"⟩, "x"⟩ := by
  decide

/-- Evaluation helper: both ranking-witness sections score `0` under the
neutral query. -/
theorem s4_scores_eval :
    calculate_multi_factor_score sem0 s4a (analyze_query_structure
      (fun _ => []) (fun _ _ => []) "x" "y") = some 0 ∧
    calculate_multi_factor_score sem0 s4b (analyze_query_structure
      (fun _ => []) (fun _ _ => []) "x" "y") = some 0 := by
  constructor
  · rw [multi_factor_score_eq_components sem0 s4a _ "Alpha" "one" "a.pdf"
      rfl rfl rfl, qaXY_eval]
    simp +decide [spec_semantic_component, spec_keyword_component,
      spec_title_component, spec_penalty_component, document_priority_score,
      sem0]
  · rw [multi_factor_score_eq_components sem0 s4b _ "Beta" "two" "b.pdf"
      rfl rfl rfl, qaXY_eval]
    simp +decide [spec_semantic_component, spec_keyword_component,
      spec_title_component, spec_penalty_component, document_priority_score,
      sem0]

/-- Evaluation helper: the full ranking run on the two witness sections,
which tie at score `0` and keep their input order with ranks 1 and 2. -/
theorem s4_analyze_eval :
    analyze_sections (fun _ => []) (fun _ _ => []) sem0 [s4a, s4b] "x" "y" =
      some [⟨some "a.pdf", 1, some "Alpha", some "one", 0, 1⟩,
            ⟨some "b.pdf", 2, some "Beta", some "two", 0, 2⟩] := by
  obtain ⟨h1, h2⟩ := s4_scores_eval
  have hss : score_sections sem0 (analyze_query_structure (fun _ => [])
      (fun _ _ => []) "x" "y") [s4a, s4b] =
      some [⟨some "a.pdf", 1, some "Alpha", some "one", 0, 9⟩,
            ⟨some "b.pdf", 2, some "Beta", some "two", 0, 0⟩] := by
    rw [score_sections, h1, score_sections, h2, score_sections]
    rfl
  have hsorted : List.Pairwise (fun a b => score_desc a b = true)
      ([⟨some "a.pdf", 1, some "Alpha", some "one", 0, 9⟩,
        ⟨some "b.pdf", 2, some "Beta", some "two", 0, 0⟩] :
        List SectionRec) := by
    simp [List.pairwise_cons, score_desc]
  rw [analyze_sections, hss]
  simp only [Option.bind_eq_bind, Option.some_bind, Option.pure_def,
    Option.some.injEq]
  rw [List.mergeSort_of_sorted hsorted]
  rfl

/-- Witness for claim C4 at a two-section tie: the assigned ranks are
exactly `[1, 2]` and the earlier input section receives the strictly
lower rank. -/
theorem claim_C4_witness :
    ([(⟨some "a.pdf", 1, some "Alpha", some "one", 0, 1⟩ : SectionRec),
      ⟨some "b.pdf", 2, some "Beta", some "two", 0, 2⟩].map
        SectionRec.importance_rank = List.range' 1 2) ∧ (1 : ℕ) < 2 := by
  obtain ⟨hrange, _, htie⟩ := claim_C4_ranking (fun _ => []) (fun _ _ => [])
    sem0 [s4a, s4b] "x" "y" _ s4_analyze_eval
  refine ⟨hrange, ?_⟩
  exact htie 0 1 (by norm_num) (by norm_num) (by norm_num) (by decide)
    (s4_scores_eval.1.trans s4_scores_eval.2.symm) 1 2 (by decide) (by decide)

/-- The scorer reads only the content fields: two records agreeing on
document, page number, title and text receive the same score, whatever
their mutable `similarity_score` / `importance_rank` hold. -/
theorem mfs_content_congr (sem : String → Option ℚ) (qa : QueryAnalysis)
    (s t : SectionRec) (h : content_eq s t) :
    calculate_multi_factor_score sem s qa =
      calculate_multi_factor_score sem t qa := by
  obtain ⟨hd, hp, ht, htx⟩ := h
  simp only [calculate_multi_factor_score, hd, ht, htx]

/-- The scoring loop, observed up to the mutable `importance_rank` field,
is a congruence along content equality. -/
theorem score_sections_clear_congr (sem : String → Option ℚ)
    (qa : QueryAnalysis) :
    ∀ {l1 l2 : List SectionRec}, List.Forall₂ content_eq l1 l2 →
      Option.map (List.map clear_rank) (score_sections sem qa l1) =
        Option.map (List.map clear_rank) (score_sections sem qa l2) := by
  intro l1 l2 h
  induction h with
  | nil => rfl
  | @cons a b l1' l2' hab h' ih =>
    have hsc : calculate_multi_factor_score sem a qa =
        calculate_multi_factor_score sem b qa := mfs_content_congr sem qa a b hab
    rw [score_sections, score_sections, ← hsc]
    cases hca : calculate_multi_factor_score sem a qa with
    | none => rfl
    | some sc =>
      simp only [Option.bind_eq_bind, Option.some_bind]
      cases hr1 : score_sections sem qa l1' with
      | none =>
        cases hr2 : score_sections sem qa l2' with
        | none => rfl
        | some r2 => rw [hr1, hr2] at ih; simp at ih
      | some r1 =>
        cases hr2 : score_sections sem qa l2' with
        | none => rw [hr1, hr2] at ih; simp at ih
        | some r2 =>
          rw [hr1, hr2] at ih
          simp only [Option.map_some', Option.some.injEq] at ih
          simp only [Option.pure_def, Option.some_bind, Option.map_some',
            Option.some.injEq, List.map_cons]
          obtain ⟨hd, hp, ht, htx⟩ := hab
          rw [ih]
          simp [clear_rank, hd, hp, ht, htx]

/-- Rank assignment depends only on the record content up to the cleared
rank field. -/
theorem addRanks_congr :
    ∀ (m1 m2 : List SectionRec) (n : ℕ),
      m1.map clear_rank = m2.map clear_rank → addRanks n m1 = addRanks n m2 := by
  intro m1
  induction m1 with
  | nil =>
    intro m2 n h
    cases m2 with
    | nil => rfl
    | cons b m2' => simp at h
  | cons a m1' ih =>
    intro m2 n h
    cases m2 with
    | nil => simp at h
    | cons b m2' =>
      simp only [List.map_cons, List.cons.injEq] at h
      obtain ⟨hhead, htail⟩ := h
      obtain ⟨ad, ap, ast, atx, asim, ar⟩ := a
      obtain ⟨bd, bp, bst, btx, bsim, br⟩ := b
      simp only [clear_rank, SectionRec.mk.injEq] at hhead
      rw [addRanks, addRanks, ih m2' (n+1) htail]
      obtain ⟨h1, h2, h3, h4, h5, _⟩ := hhead
      simp [h1, h2, h3, h4, h5]

/-- Claim C10: ranking is deterministic and depends only on the content
fields: two runs on section lists that agree on document, page number,
title and text — in particular a re-run on the same list after the first
run has overwritten its `similarity_score` / `importance_rank` fields in
place — produce identical outputs, hence identical `importance_rank`
assignments. -/
theorem claim_C10_determinism (ece : String → List String)
    (findall : String → String → List String) (sem : String → Option ℚ)
    (persona job : String) (l1 l2 : List SectionRec)
    (h : List.Forall₂ content_eq l1 l2) :
    analyze_sections ece findall sem l1 persona job =
      analyze_sections ece findall sem l2 persona job := by
  have hc := score_sections_clear_congr sem
    (analyze_query_structure ece findall persona job) h
  rw [analyze_sections, analyze_sections]
  cases h1 : score_sections sem
      (analyze_query_structure ece findall persona job) l1 with
  | none =>
    cases h2 : score_sections sem
        (analyze_query_structure ece findall persona job) l2 with
    | none => rfl
    | some r2 => rw [h1, h2] at hc; simp at hc
  | some r1 =>
    cases h2 : score_sections sem
        (analyze_query_structure ece findall persona job) l2 with
    | none => rw [h1, h2] at hc; simp at hc
    | some r2 =>
      rw [h1, h2] at hc
      simp only [Option.map_some', Option.some.injEq] at hc
      simp only [Option.bind_eq_bind, Option.some_bind, Option.pure_def,
        Option.some.injEq]
      apply addRanks_congr
      have hcomm1 : (r1.mergeSort score_desc).map clear_rank =
          (r1.map clear_rank).mergeSort score_desc :=
        List.map_mergeSort (fun a _ b _ => rfl)
      have hcomm2 : (r2.mergeSort score_desc).map clear_rank =
          (r2.map clear_rank).mergeSort score_desc :=
        List.map_mergeSort (fun a _ b _ => rfl)
      rw [hcomm1, hcomm2, hc]

/-- Witness for claim C10: re-ranking the same section after its mutable
score and rank fields were overwritten yields the identical output. -/
theorem claim_C10_witness :
    analyze_sections (fun _ => ["apple"]) (fun _ _ => []) sem0
        [sec_ex1] "" "apple" =
      analyze_sections (fun _ => ["apple"]) (fun _ _ => []) sem0
        [{ sec_ex1 with similarity_score := 99, importance_rank := 7 }]
        "" "apple" :=
  claim_C10_determinism (fun _ => ["apple"]) (fun _ _ => []) sem0 "" "apple"
    [sec_ex1] [{ sec_ex1 with similarity_score := 99, importance_rank := 7 }]
    (List.Forall₂.cons ⟨rfl, rfl, rfl, rfl⟩ List.Forall₂.nil)
